import Mathlib

/-!
Verification of the ZipLock shared-library core (repository `ejangi/ziplock`).

The repository ships the C interface declarations (`src/shared/include/ziplock.h`,
`src/shared/include/ziplock_hybrid.h`) and the Android JNI glue
(`ziplock_hybrid_jni.cpp`); the implementation behind those declarations is not
part of the visible sources.  The enumerations, numeric codes and documented
return conventions below are embedded directly from the headers; behaviour that
the headers only declare is modelled from the specification, and every such
definition is marked `Modelled from the spec:` in its doc comment.
-/

/-- Error codes of the hybrid interface, embedded from `ZipLockHybridError` in
`src/shared/include/ziplock_hybrid.h` lines 30-44. -/
inductive HybridStatus where
  | success
  | invalidParameter
  | notInitialized
  | alreadyInitialized
  | credentialNotFound
  | validationFailed
  | cryptoError
  | outOfMemory
  | internalError
  | serializationError
  | jsonParseError
  | externalFileOperationsRequired
  | runtimeContextError
deriving DecidableEq, Repr

/-- Numeric value of each `ZipLockHybridError` constant, exactly as assigned in
`src/shared/include/ziplock_hybrid.h` lines 30-44. -/
def hybridErrorCode : HybridStatus → Int
  | .success => 0
  | .invalidParameter => 1
  | .notInitialized => 2
  | .alreadyInitialized => 3
  | .credentialNotFound => 4
  | .validationFailed => 5
  | .cryptoError => 6
  | .outOfMemory => 7
  | .internalError => 8
  | .serializationError => 9
  | .jsonParseError => 10
  | .externalFileOperationsRequired => 11
  | .runtimeContextError => 12

/-- Error codes of the base interface, embedded from `ziplock_error_t` in
`src/shared/include/ziplock.h` lines 36-46. -/
inductive ZiplockErrorT where
  | success
  | invalidPointer
  | invalidString
  | invalidField
  | validationFailed
  | serializationFailed
  | notFound
  | alreadyExists
  | internal
deriving DecidableEq, Repr

/-- Numeric value of each `ziplock_error_t` constant, exactly as assigned in
`src/shared/include/ziplock.h` lines 36-46. -/
def ziplockErrorCode : ZiplockErrorT → Int
  | .success => 0
  | .invalidPointer => -1
  | .invalidString => -2
  | .invalidField => -3
  | .validationFailed => -4
  | .serializationFailed => -5
  | .notFound => -6
  | .alreadyExists => -7
  | .internal => -8

/-- A hybrid status is a failure when it is neither plain success nor the
`EXTERNAL_FILE_OPERATIONS_REQUIRED` control signal, which the specification
classifies as "a control signal, not a failure". -/
def isHybridFailure (s : HybridStatus) : Bool :=
  s ≠ HybridStatus.success ∧ s ≠ HybridStatus.externalFileOperationsRequired

/-- Runtime strategies, embedded from `ZipLockRuntimeStrategy` in
`src/shared/include/ziplock_hybrid.h` lines 69-73. -/
inductive ZipLockRuntimeStrategy where
  | createOwned
  | useExisting
  | externalFileOps
deriving DecidableEq, Repr

/-- Numeric value of each `ZipLockRuntimeStrategy` constant, exactly as
assigned in `src/shared/include/ziplock_hybrid.h` lines 69-73. -/
def runtimeStrategyCode : ZipLockRuntimeStrategy → Int
  | .createOwned => 0
  | .useExisting => 1
  | .externalFileOps => 2

/-- Modelled from the spec: whether a strategy delegates file operations to the
external caller.  The implementation of the strategy consumers is not under
`src/`; the header (lines 470-481) states that `UseExisting` is deprecated and
maps to `ExternalFileOps`, so exactly `CreateOwned` performs file operations
directly. -/
def strategyDelegatesFileOps : ZipLockRuntimeStrategy → Bool
  | .createOwned => false
  | .useExisting => true
  | .externalFileOps => true

/-- Modelled from the spec: the strategy selector behind
`ziplock_hybrid_get_runtime_strategy`, whose implementation is not under
`src/`.  Spec rule: "if the platform cannot do direct I/O, always
`ExternalFileOps`; otherwise `CreateOwned` if the call is free to block,
`ExternalFileOps` if it is not."  `canDirectIo` is the platform capability and
`freeToBlock` the calling context. -/
def ziplock_hybrid_get_runtime_strategy (canDirectIo freeToBlock : Bool) :
    ZipLockRuntimeStrategy :=
  if canDirectIo then
    if freeToBlock then .createOwned else .externalFileOps
  else .externalFileOps

/-- Kinds of public calls for the lifecycle model: `ziplock_hybrid_init`,
`ziplock_hybrid_cleanup`, and any other operation of the hybrid interface. -/
inductive HybridOp where
  | opInit
  | opCleanup
  | opOther
deriving DecidableEq, Repr

/-- Process-wide lifecycle state: the initialization flag of the error/lifecycle
context described in the specification. -/
structure LifecycleState where
  initialized : Bool
deriving DecidableEq, Repr

/-- Modelled from the spec: the lifecycle behaviour of `ziplock_hybrid_init`,
`ziplock_hybrid_cleanup` and every other hybrid operation, whose
implementations are not under `src/`.  Spec rule: "`init` is idempotent-checked
(`AlreadyInitialized` on double-init) and all operations before `init` or after
`cleanup` fail with `NotInitialized`."  Returns the status of the call together
with the successor state. -/
def hybridStep (st : LifecycleState) : HybridOp → HybridStatus × LifecycleState
  | .opInit =>
      if st.initialized then (.alreadyInitialized, st) else (.success, ⟨true⟩)
  | .opCleanup =>
      if st.initialized then (.success, ⟨false⟩) else (.notInitialized, st)
  | .opOther =>
      if st.initialized then (.success, st) else (.notInitialized, st)

/-- Run a sequence of calls from the pristine (uninitialized) process state. -/
def runOps (ops : List HybridOp) : LifecycleState :=
  ops.foldl (fun st op => (hybridStep st op).2) ⟨false⟩

/-- Tracker of the last lifecycle event: an `init` opens the library, a
`cleanup` closes it, any other call leaves it as it was. -/
def lifeNext (b : Bool) : HybridOp → Bool
  | .opInit => true
  | .opCleanup => false
  | .opOther => b

/-- Whether the last lifecycle event (`init`/`cleanup`) of the sequence is a
successful `init`, i.e. the sequence leaves the library usable. -/
def openAfter (ops : List HybridOp) : Bool :=
  ops.foldl lifeNext false

/-- Metrics counters of the telemetry collector (`ziplock_hybrid_get_metrics`):
total operations, fallbacks, errors, and operations completed locally. -/
structure HybridMetrics where
  totalOperations : Nat
  fallbackCount : Nat
  errorCount : Nat
  localCount : Nat
deriving DecidableEq, Repr

/-- Modelled from the spec: how the metrics collector records one completed
call, whose implementation is not under `src/`.  Spec rule: the fallback
counter is "incremented exactly when a call resolves to
`ExternalFileOps`/`UseExisting` rather than completing locally" and the error
counter is "incremented on any call returning a non-success code, excluding the
`ExternalFileOperationsRequired` signal which is not an error". -/
def recordOperation (m : HybridMetrics) (s : HybridStatus) : HybridMetrics where
  totalOperations := m.totalOperations + 1
  fallbackCount :=
    m.fallbackCount +
      (if s = HybridStatus.externalFileOperationsRequired then 1 else 0)
  errorCount :=
    m.errorCount + (if isHybridFailure s then 1 else 0)
  localCount :=
    m.localCount +
      (if s = HybridStatus.externalFileOperationsRequired then 0 else 1)

/-- An event seen by the metrics collector: a completed call with its resulting
status, or an explicit `ziplock_hybrid_reset_metrics` request. -/
inductive MetricsEvent where
  | call (s : HybridStatus)
  | reset
deriving DecidableEq, Repr

/-- Modelled from the spec: `ziplock_hybrid_reset_metrics` "atomically zeroes
all counters"; its implementation is not under `src/`. -/
def ziplock_hybrid_reset_metrics : HybridMetrics :=
  ⟨0, 0, 0, 0⟩

/-- One step of the metrics collector. -/
def metricsStep (m : HybridMetrics) : MetricsEvent → HybridMetrics
  | .call s => recordOperation m s
  | .reset => ziplock_hybrid_reset_metrics

/-- Run the metrics collector over a sequence of events from the zeroed
initial state. -/
def runMetrics (evs : List MetricsEvent) : HybridMetrics :=
  evs.foldl metricsStep ⟨0, 0, 0, 0⟩

/-- State of the allocation boundary: the identifiers of live heap objects of
each kind handed across the FFI (pointer value `0` is the null pointer), plus
the last-error slot of the error context. -/
structure FfiHeap where
  strings : List Nat
  credentials : List Nat
  credentialData : List Nat
  strengths : List Nat
  validationResults : List Nat
  searchResults : List Nat
  lastError : Option String
deriving DecidableEq, Repr

/-- Modelled from the spec: `ziplock_string_free` (implementation not under
`src/`); the header documents "String to free (can be NULL)", so the null
pointer is accepted and nothing is freed and no error is reported. -/
def ziplock_string_free (st : FfiHeap) (ptr : Nat) : FfiHeap :=
  if ptr = 0 then st else { st with strings := st.strings.erase ptr }

/-- Modelled from the spec: `ziplock_credential_free` (implementation not under
`src/`); the header documents "Credential to free (can be NULL)". -/
def ziplock_credential_free (st : FfiHeap) (ptr : Nat) : FfiHeap :=
  if ptr = 0 then st else { st with credentials := st.credentials.erase ptr }

/-- Modelled from the spec: `ziplock_credential_data_free` (implementation not
under `src/`); the header documents "Credential data to free (can be NULL)". -/
def ziplock_credential_data_free (st : FfiHeap) (ptr : Nat) : FfiHeap :=
  if ptr = 0 then st
  else { st with credentialData := st.credentialData.erase ptr }

/-- Modelled from the spec: `ziplock_password_strength_free` (implementation
not under `src/`); the header documents the argument "can be NULL". -/
def ziplock_password_strength_free (st : FfiHeap) (ptr : Nat) : FfiHeap :=
  if ptr = 0 then st else { st with strengths := st.strengths.erase ptr }

/-- Modelled from the spec: `ziplock_validation_result_free` (implementation
not under `src/`); the header documents the argument "can be NULL". -/
def ziplock_validation_result_free (st : FfiHeap) (ptr : Nat) : FfiHeap :=
  if ptr = 0 then st
  else { st with validationResults := st.validationResults.erase ptr }

/-- Modelled from the spec: `ziplock_search_result_free` (implementation not
under `src/`); the header documents the argument "can be NULL". -/
def ziplock_search_result_free (st : FfiHeap) (ptr : Nat) : FfiHeap :=
  if ptr = 0 then st
  else { st with searchResults := st.searchResults.erase ptr }

/-- Modelled from the spec: `ziplock_hybrid_string_free` of the hybrid
interface (implementation not under `src/`), with the same null-accepting
contract as the base interface free functions. -/
def ziplock_hybrid_string_free (st : FfiHeap) (ptr : Nat) : FfiHeap :=
  if ptr = 0 then st else { st with strings := st.strings.erase ptr }

/-- The Android JNI wrapper
`Java_com_ziplock_ffi_ZipLockDataManager_hybridStringFree`, embedded from
`ziplock_hybrid_jni.cpp` lines 59-64: the wrapper itself guards against the
null (`0`) handle before delegating to `ziplock_hybrid_string_free`. -/
def hybridStringFreeJni (st : FfiHeap) (ptr : Nat) : FfiHeap :=
  if ptr ≠ 0 then ziplock_hybrid_string_free st ptr else st

/-- The envelope produced by encryption: the specification states the output
"encodes `salt || nonce || ciphertext || authentication_tag` in a reversible
text encoding"; the reversible encoding is modelled by this record. -/
structure EncryptedEnvelope where
  salt : List Nat
  nonce : List Nat
  ciphertext : List Nat
  tag : List Nat
deriving DecidableEq, Repr

/-- Modelled from the spec: the key-derivation function ("derives a symmetric
key from `password` and a ... salt"); the implementation is not under `src/`
and the spec leaves the KDF algorithm open, so it is modelled as an ideal
(collision-free) combination of password and salt.  The marker value `256` is
outside the byte range, making the combination injective in the password. -/
def deriveKey (password salt : List Nat) : List Nat :=
  password ++ 256 :: salt

/-- Byte `i` of the keystream generated from a (non-empty) key. -/
def keyStream (key : List Nat) (i : Nat) : Nat :=
  key.getD (i % key.length) 0

/-- Modelled from the spec: the authenticated cipher's encryption direction, as
a keystream cipher over bytes; the implementation is not under `src/` and the
spec leaves the cipher algorithm open ("an authenticated stream cipher"). -/
def streamEncrypt (key : List Nat) : Nat → List Nat → List Nat
  | _, [] => []
  | i, d :: ds => (d + keyStream key i) % 256 :: streamEncrypt key (i + 1) ds

/-- Modelled from the spec: the cipher's decryption direction. -/
def streamDecrypt (key : List Nat) : Nat → List Nat → List Nat
  | _, [] => []
  | i, c :: cs =>
      (c + 256 - keyStream key i % 256) % 256 :: streamDecrypt key (i + 1) cs

/-- Modelled from the spec: the authentication tag over nonce and ciphertext
under the derived key; the spec leaves the MAC algorithm open, so it is
modelled as an ideal (collision-free) MAC.  The markers `257` and `258` are
outside the byte range, so equal tags force equal keys for a fixed nonce and
ciphertext. -/
def authTag (key nonce ct : List Nat) : List Nat :=
  key ++ 257 :: nonce ++ 258 :: ct

/-- Modelled from the spec: `ziplock_hybrid_encrypt_data` (implementation not
under `src/`).  The caller-invisible fresh salt and nonce are explicit
parameters so that the function is a pure model of one call. -/
def ziplock_hybrid_encrypt_data (data password salt nonce : List Nat) :
    EncryptedEnvelope :=
  let key := deriveKey password salt
  let ct := streamEncrypt key 0 data
  ⟨salt, nonce, ct, authTag key nonce ct⟩

/-- Modelled from the spec: `ziplock_hybrid_decrypt_data` (implementation not
under `src/`).  It "rederives the key with the embedded salt, verifies the
authentication tag before returning any plaintext; fails with `CryptoError` on
tag mismatch ... and never returns partially-decrypted data on failure". -/
def ziplock_hybrid_decrypt_data (env : EncryptedEnvelope)
    (password : List Nat) : Except HybridStatus (List Nat) :=
  let key := deriveKey password env.salt
  if env.tag = authTag key env.nonce env.ciphertext then
    .ok (streamDecrypt key 0 env.ciphertext)
  else .error .cryptoError

/-- Value of one RFC 4648 base32 alphabet character (`A`-`Z` map to 0-25,
`2`-`7` map to 26-31); `none` on any other character. -/
def base32CharValue (c : Char) : Option Nat :=
  if 'A' ≤ c ∧ c ≤ 'Z' then some (c.toNat - 65)
  else if '2' ≤ c ∧ c ≤ '7' then some (c.toNat - 50 + 26)
  else none

/-- Base32 bit-accumulator loop: `buf` holds `bits` pending bits; each
character contributes 5 bits and every full 8 bits emit one byte. -/
def base32DecodeAux : List Char → Nat → Nat → List Nat → Option (List Nat)
  | [], _, _, out => some out.reverse
  | c :: cs, buf, bits, out =>
      match base32CharValue c with
      | none => none
      | some v =>
          let buf2 := buf * 32 + v
          let bits2 := bits + 5
          if 8 ≤ bits2 then
            base32DecodeAux cs (buf2 % 2 ^ (bits2 - 8)) (bits2 - 8)
              ((buf2 / 2 ^ (bits2 - 8)) % 256 :: out)
          else base32DecodeAux cs buf2 bits2 out

/-- Modelled from the spec: decoding of the base32 TOTP secret ("fails with
`InvalidParameter` on invalid alphabet or empty secret"); the implementation is
not under `src/`. -/
def base32Decode (s : List Char) : Option (List Nat) :=
  if s.isEmpty then none else base32DecodeAux s 0 0 []

/-- The big-endian 8-byte encoding of the TOTP counter. -/
def beBytes8 (n : Nat) : List Nat :=
  (List.range 8).map (fun i => n / 2 ^ (8 * (7 - i)) % 256)

/-- Dynamic truncation of an HMAC value (RFC 4226): the offset is the low
nibble of the last byte; the 4-byte window starting there, with the top bit of
its first byte masked, is read as a big-endian 31-bit integer. -/
def dynamicTruncate (mac : List Nat) : Nat :=
  let offset := mac.getD (mac.length - 1) 0 % 16
  let b0 := mac.getD offset 0 % 128
  let b1 := mac.getD (offset + 1) 0 % 256
  let b2 := mac.getD (offset + 2) 0 % 256
  let b3 := mac.getD (offset + 3) 0 % 256
  b0 * 2 ^ 24 + b1 * 2 ^ 16 + b2 * 2 ^ 8 + b3

/-- Zero-padded 6-digit decimal rendering of a TOTP value. -/
def formatCode6 (n : Nat) : List Char :=
  (List.range 6).map (fun i => Char.ofNat (48 + n / 10 ^ (5 - i) % 10))

/-- Modelled from the spec: `ziplock_totp_generate` (implementation not under
`src/`).  The spec leaves the HMAC hash open, so the HMAC is a parameter
(`hmac key message`); `time` is the current Unix time in seconds.  Pipeline per
the spec: decode the base32 secret, take `counter = time / timeStep`, HMAC the
big-endian 8-byte counter keyed by the decoded secret, dynamically truncate,
reduce modulo 10^6 and zero-pad to 6 digits. -/
def ziplock_totp_generate (hmac : List Nat → List Nat → List Nat)
    (secret : List Char) (time timeStep : Nat) :
    Except HybridStatus (List Char) :=
  if timeStep = 0 then .error .invalidParameter
  else
    match base32Decode secret with
    | none => .error .invalidParameter
    | some key =>
        let counter := time / timeStep
        let mac := hmac key (beBytes8 counter)
        .ok (formatCode6 (dynamicTruncate mac % 1000000))

/-- The uppercase character class of the password generator. -/
def uppercaseChars : List Char := "ABCDEFGHIJKLMNOPQRSTUVWXYZ".data

/-- The lowercase character class of the password generator. -/
def lowercaseChars : List Char := "abcdefghijklmnopqrstuvwxyz".data

/-- The digit character class of the password generator. -/
def numberChars : List Char := "0123456789".data

/-- The symbol character class of the password generator. -/
def symbolChars : List Char := "!@#$%^&*()-_=+;:,.<>?/".data

/-- The list of character classes requested by the four class flags, in the
order of the `ziplock_password_generate` parameters. -/
def requestedClasses (upper lower numbers symbols : Bool) : List (List Char) :=
  (if upper then [uppercaseChars] else []) ++
    (if lower then [lowercaseChars] else []) ++
    (if numbers then [numberChars] else []) ++
    (if symbols then [symbolChars] else [])

/-- Draw one character from a class using one random value. -/
def pickChar (r : Nat) (cls : List Char) : Char :=
  cls.getD (r % cls.length) 'a'

/-- One guaranteed character per requested class, drawn with consecutive
random values starting at index `k`. -/
def seedChars (r : Nat → Nat) (k : Nat) : List (List Char) → List Char
  | [] => []
  | cls :: rest => pickChar (r k) cls :: seedChars r (k + 1) rest

/-- Insert a character at (at most) position `n` of a list. -/
def insertAt : Nat → Char → List Char → List Char
  | 0, c, l => c :: l
  | _ + 1, c, [] => [c]
  | n + 1, c, x :: xs => x :: insertAt n c xs

/-- Fisher-Yates-style shuffle driven by the random stream `r` from index `k`:
each element is inserted at a random position of the shuffled remainder. -/
def shuffleChars (r : Nat → Nat) (k : Nat) : List Char → List Char
  | [] => []
  | c :: cs =>
      let rest := shuffleChars r (k + 1) cs
      insertAt (r k % (rest.length + 1)) c rest

/-- The successful branch of the password generator: one guaranteed character
per requested class, the remainder filled from the union of the requested
classes, truncated to the requested length and shuffled. -/
def passwordRaw (len : Nat) (upper lower numbers symbols : Bool)
    (r : Nat → Nat) : List Char :=
  let classes := requestedClasses upper lower numbers symbols
  let seeds := seedChars r 0 classes
  let union := classes.flatten
  let fills :=
    (List.range (len - classes.length)).map
      (fun i => pickChar (r (classes.length + i)) union)
  shuffleChars r len ((seeds ++ fills).take len)

/-- Modelled from the spec: `ziplock_password_generate` /
`ziplock_hybrid_password_generate` (implementation not under `src/`).  The
cryptographically secure random source is modelled by the stream `r`.  Per the
spec: length constrained to `[1,256]`, `InvalidParameter` when out of range or
no class flag is set; otherwise one guaranteed character per requested class is
seeded, the remainder is filled from the union of the requested classes, and
the result is shuffled. -/
def ziplock_password_generate (len : Nat)
    (upper lower numbers symbols : Bool) (r : Nat → Nat) :
    Except HybridStatus (List Char) :=
  if len < 1 ∨ 256 < len ∨ (requestedClasses upper lower numbers symbols).isEmpty then
    .error .invalidParameter
  else .ok (passwordRaw len upper lower numbers symbols r)

/-- C3: the runtime strategy is a pure function of (platform capability,
calling context): without direct-I/O capability the selector returns
`ExternalFileOps` for every calling context and never `CreateOwned`; with the
capability it returns `CreateOwned` exactly when the call is free to block; and
`UseExisting` delegates file operations identically to `ExternalFileOps`. -/
theorem runtime_strategy_pure_function :
    ∀ ctx : Bool,
      ziplock_hybrid_get_runtime_strategy false ctx =
          ZipLockRuntimeStrategy.externalFileOps
        ∧ ziplock_hybrid_get_runtime_strategy false ctx ≠
          ZipLockRuntimeStrategy.createOwned
        ∧ ziplock_hybrid_get_runtime_strategy true true =
          ZipLockRuntimeStrategy.createOwned
        ∧ ziplock_hybrid_get_runtime_strategy true false =
          ZipLockRuntimeStrategy.externalFileOps
        ∧ strategyDelegatesFileOps ZipLockRuntimeStrategy.useExisting =
          strategyDelegatesFileOps ZipLockRuntimeStrategy.externalFileOps := by
  decide

/-- C4 counterexample: in the hybrid interface declared in
`ziplock_hybrid.h`, `ZIPLOCK_HYBRID_INVALID_PARAMETER` is a failure status
whose numeric code is `1`, a positive value, so a positive status does not
mean success and failures are not reported by negative codes. -/
theorem hybrid_failure_code_is_positive :
    isHybridFailure HybridStatus.invalidParameter = true
      ∧ hybridErrorCode HybridStatus.invalidParameter = 1
      ∧ ¬ hybridErrorCode HybridStatus.invalidParameter < 0 := by
  decide

/-- C4 (amended): in the base `ziplock.h` interface a status is negative
exactly when it is a failure (`0` = success); in the hybrid
`ziplock_hybrid.h` interface `0` means success and every non-success status
has a positive code in `[1,12]`. -/
theorem status_code_conventions (e : ZiplockErrorT) (s : HybridStatus)
    (hs : s ≠ HybridStatus.success) :
    (ziplockErrorCode e < 0 ↔ e ≠ ZiplockErrorT.success)
      ∧ hybridErrorCode HybridStatus.success = 0
      ∧ 1 ≤ hybridErrorCode s ∧ hybridErrorCode s ≤ 12 := by
  refine ⟨by cases e <;> decide, by decide, ?_, ?_⟩ <;>
    cases s <;> first | exact absurd rfl hs | decide

/-- Closed instance of `status_code_conventions` at `NOT_FOUND` and
`CRYPTO_ERROR`. -/
theorem status_code_conventions_witness :
    HybridStatus.cryptoError ≠ HybridStatus.success ∧
      ((ziplockErrorCode ZiplockErrorT.notFound < 0 ↔
          ZiplockErrorT.notFound ≠ ZiplockErrorT.success)
        ∧ hybridErrorCode HybridStatus.success = 0
        ∧ 1 ≤ hybridErrorCode HybridStatus.cryptoError
        ∧ hybridErrorCode HybridStatus.cryptoError ≤ 12) :=
  ⟨by decide,
    status_code_conventions ZiplockErrorT.notFound HybridStatus.cryptoError
      (by decide)⟩

/-- The successor state of a lifecycle step carries exactly the tracked
last-lifecycle-event flag. -/
theorem hybridStep_snd (st : LifecycleState) (op : HybridOp) :
    (hybridStep st op).2 = ⟨lifeNext st.initialized op⟩ := by
  obtain ⟨b⟩ := st
  cases op <;> cases b <;> rfl

/-- The initialization flag after folding the lifecycle step function equals
the fold of the last-`init`/`cleanup` tracker, from any starting state. -/
theorem foldl_hybridStep_initialized (ops : List HybridOp) :
    ∀ st : LifecycleState,
      (ops.foldl (fun st op => (hybridStep st op).2) st).initialized =
        ops.foldl lifeNext st.initialized := by
  induction ops with
  | nil => intro st; rfl
  | cons op rest ih =>
      intro st
      rw [List.foldl_cons, List.foldl_cons, hybridStep_snd st op, ih]

/-- C5: after any sequence of calls starting from the pristine state, a second
`init` while initialized fails with `AlreadyInitialized` (and succeeds
otherwise), every other operation and `cleanup` fail with `NotInitialized`
exactly when the library is not initialized (and succeed otherwise), and the
library is initialized exactly when the last lifecycle event of the sequence
is an `init` not followed by a `cleanup`. -/
theorem hybrid_lifecycle_spec (ops : List HybridOp) :
    (hybridStep (runOps ops) .opInit).1 =
        (if (runOps ops).initialized then HybridStatus.alreadyInitialized
          else HybridStatus.success)
      ∧ (hybridStep (runOps ops) .opOther).1 =
        (if (runOps ops).initialized then HybridStatus.success
          else HybridStatus.notInitialized)
      ∧ (hybridStep (runOps ops) .opCleanup).1 =
        (if (runOps ops).initialized then HybridStatus.success
          else HybridStatus.notInitialized)
      ∧ (runOps ops).initialized = openAfter ops := by
  refine ⟨?_, ?_, ?_, ?_⟩
  · cases h : (runOps ops).initialized <;> simp [hybridStep, h]
  · cases h : (runOps ops).initialized <;> simp [hybridStep, h]
  · cases h : (runOps ops).initialized <;> simp [hybridStep, h]
  · exact foldl_hybridStep_initialized ops ⟨false⟩

/-- The sum invariant `fallback + local = total` is preserved by any fold of
metrics events. -/
theorem foldl_metricsStep_sum (evs : List MetricsEvent) :
    ∀ m : HybridMetrics,
      m.fallbackCount + m.localCount = m.totalOperations →
      (evs.foldl metricsStep m).fallbackCount +
          (evs.foldl metricsStep m).localCount =
        (evs.foldl metricsStep m).totalOperations := by
  induction evs with
  | nil => intro m hm; exact hm
  | cons ev rest ih =>
      intro m hm
      cases ev with
      | call s =>
          refine ih _ ?_
          by_cases hs : s = HybridStatus.externalFileOperationsRequired
          · subst hs
            simp only [metricsStep, recordOperation, if_pos]
            omega
          · simp only [metricsStep, recordOperation, if_neg hs]
            omega
      | reset => exact ih _ rfl

/-- C6: after any sequence of metrics events the counters satisfy
`fallback_count + locally_completed = total_operations` (hence
`fallback_count ≤ total_operations`, and no counter is negative since all
counters are naturals), and recording a call never decreases any counter —
only an explicit reset does. -/
theorem metrics_counters_invariant (evs : List MetricsEvent)
    (m : HybridMetrics) (s : HybridStatus) :
    (runMetrics evs).fallbackCount + (runMetrics evs).localCount =
        (runMetrics evs).totalOperations
      ∧ (runMetrics evs).fallbackCount ≤ (runMetrics evs).totalOperations
      ∧ m.totalOperations ≤ (recordOperation m s).totalOperations
      ∧ m.fallbackCount ≤ (recordOperation m s).fallbackCount
      ∧ m.errorCount ≤ (recordOperation m s).errorCount
      ∧ m.localCount ≤ (recordOperation m s).localCount := by
  have hsum :
      (runMetrics evs).fallbackCount + (runMetrics evs).localCount =
        (runMetrics evs).totalOperations :=
    foldl_metricsStep_sum evs ⟨0, 0, 0, 0⟩ rfl
  exact ⟨hsum, by omega, Nat.le_add_right _ _, Nat.le_add_right _ _,
    Nat.le_add_right _ _, Nat.le_add_right _ _⟩

/-- C7: a call resolving to `ExternalFileOperationsRequired` increments the
fallback counter and leaves the error counter unchanged, while a call
returning any other non-success status increments the error counter and
leaves the fallback counter unchanged. -/
theorem fallback_not_counted_as_error (m : HybridMetrics) (s : HybridStatus)
    (h1 : s ≠ HybridStatus.success)
    (h2 : s ≠ HybridStatus.externalFileOperationsRequired) :
    (recordOperation m
          HybridStatus.externalFileOperationsRequired).fallbackCount =
        m.fallbackCount + 1
      ∧ (recordOperation m
          HybridStatus.externalFileOperationsRequired).errorCount =
        m.errorCount
      ∧ (recordOperation m s).errorCount = m.errorCount + 1
      ∧ (recordOperation m s).fallbackCount = m.fallbackCount := by
  simp [recordOperation, isHybridFailure, h1, h2]

/-- Closed instance of `fallback_not_counted_as_error` at the zero counters
and the `CRYPTO_ERROR` status. -/
theorem fallback_not_counted_as_error_witness :
    HybridStatus.cryptoError ≠ HybridStatus.success ∧
      HybridStatus.cryptoError ≠
        HybridStatus.externalFileOperationsRequired ∧
      ((recordOperation ⟨0, 0, 0, 0⟩
            HybridStatus.externalFileOperationsRequired).fallbackCount =
          (0 : Nat) + 1
        ∧ (recordOperation ⟨0, 0, 0, 0⟩
            HybridStatus.externalFileOperationsRequired).errorCount = 0
        ∧ (recordOperation ⟨0, 0, 0, 0⟩
            HybridStatus.cryptoError).errorCount = (0 : Nat) + 1
        ∧ (recordOperation ⟨0, 0, 0, 0⟩
            HybridStatus.cryptoError).fallbackCount = 0) :=
  ⟨by decide, by decide,
    fallback_not_counted_as_error ⟨0, 0, 0, 0⟩ HybridStatus.cryptoError
      (by decide) (by decide)⟩

/-- Decrypting right after encrypting with the same keystream recovers the
plaintext bytes, from any stream position. -/
theorem stream_roundtrip (key : List Nat) :
    ∀ (data : List Nat) (i : Nat), (∀ b ∈ data, b < 256) →
      streamDecrypt key i (streamEncrypt key i data) = data := by
  intro data
  induction data with
  | nil => intro i _; rfl
  | cons d ds ih =>
      intro i hd
      have hd0 : d < 256 := hd d (List.mem_cons_self d ds)
      have hds : ∀ b ∈ ds, b < 256 := fun b hb => hd b (List.mem_cons_of_mem d hb)
      show ((d + keyStream key i) % 256 + 256 - keyStream key i % 256) % 256 ::
          streamDecrypt key (i + 1) (streamEncrypt key (i + 1) ds) = d :: ds
      rw [ih (i + 1) hds]
      congr 1
      omega

/-- Appending a marker outside the byte range makes a byte list recoverable:
two byte lists followed by `256 :: t` are equal only if they are equal. -/
theorem sep_append_inj : ∀ (a b t : List Nat), (256 : Nat) ∉ a →
    (256 : Nat) ∉ b → a ++ 256 :: t = b ++ 256 :: t → a = b := by
  intro a
  induction a with
  | nil =>
      intro b t _ hb h
      cases b with
      | nil => rfl
      | cons y b2 =>
          exfalso
          simp only [List.nil_append, List.cons_append, List.cons.injEq] at h
          refine hb ?_
          rw [← h.1]
          exact List.mem_cons_self _ _
  | cons x a2 ih =>
      intro b t ha hb h
      cases b with
      | nil =>
          exfalso
          simp only [List.cons_append, List.nil_append, List.cons.injEq] at h
          refine ha ?_
          rw [← h.1]
          exact List.mem_cons_self _ _
      | cons y b2 =>
          simp only [List.cons_append, List.cons.injEq] at h
          have ha2 : (256 : Nat) ∉ a2 := fun hm => ha (List.mem_cons_of_mem _ hm)
          have hb2 : (256 : Nat) ∉ b2 := fun hm => hb (List.mem_cons_of_mem _ hm)
          rw [h.1, ih b2 t ha2 hb2 h.2]

/-- C2: decrypting the output of `encrypt(data, password)` with the same
password returns the original data exactly, and decrypting it with any
different password fails with `CryptoError` and yields no plaintext at all
(the result is the bare error, carrying no partial data).  The byte-range
hypotheses say that data and passwords consist of bytes, as they do when they
cross the C boundary. -/
theorem encrypt_then_decrypt (data password password2 salt nonce : List Nat)
    (hdata : ∀ b ∈ data, b < 256)
    (hpw : (256 : Nat) ∉ password) (hpw2 : (256 : Nat) ∉ password2) :
    ziplock_hybrid_decrypt_data
        (ziplock_hybrid_encrypt_data data password salt nonce) password =
      Except.ok data
    ∧ (password2 ≠ password →
        ziplock_hybrid_decrypt_data
          (ziplock_hybrid_encrypt_data data password salt nonce) password2 =
        Except.error HybridStatus.cryptoError) := by
  constructor
  · simp only [ziplock_hybrid_encrypt_data, ziplock_hybrid_decrypt_data]
    rw [if_pos trivial, stream_roundtrip _ data 0 hdata]
  · intro hne
    have hkey : deriveKey password2 salt ≠ deriveKey password salt := by
      intro h
      exact hne (sep_append_inj password2 password salt hpw2 hpw h)
    have htag :
        authTag (deriveKey password salt) nonce
            (streamEncrypt (deriveKey password salt) 0 data) ≠
          authTag (deriveKey password2 salt) nonce
            (streamEncrypt (deriveKey password salt) 0 data) := by
      intro h
      exact hkey (List.append_cancel_right (List.append_cancel_right h)).symm
    simp only [ziplock_hybrid_encrypt_data, ziplock_hybrid_decrypt_data]
    rw [if_neg htag]

/-- Closed instance of `encrypt_then_decrypt` on concrete bytes. -/
theorem encrypt_then_decrypt_witness :
    ((∀ b ∈ ([104, 105] : List Nat), b < 256) ∧ (256 : Nat) ∉ ([97] : List Nat)
        ∧ (256 : Nat) ∉ ([98] : List Nat)) ∧
      (ziplock_hybrid_decrypt_data
            (ziplock_hybrid_encrypt_data [104, 105] [97] [1, 2] [3]) [97] =
          Except.ok [104, 105]
        ∧ (([98] : List Nat) ≠ [97] →
            ziplock_hybrid_decrypt_data
              (ziplock_hybrid_encrypt_data [104, 105] [97] [1, 2] [3]) [98] =
            Except.error HybridStatus.cryptoError)) :=
  ⟨⟨by decide, by decide, by decide⟩,
    encrypt_then_decrypt [104, 105] [97] [98] [1, 2] [3] (by decide)
      (by decide) (by decide)⟩

/-- C10: every deallocation operation of the public interface accepts the
null pointer and is then a no-op: the heap is unchanged (nothing is freed)
and the last-error slot is untouched (no error is reported); the JNI
string-free wrapper behaves the same way. -/
theorem free_null_is_noop (st : FfiHeap) :
    ziplock_string_free st 0 = st
      ∧ ziplock_credential_free st 0 = st
      ∧ ziplock_credential_data_free st 0 = st
      ∧ ziplock_password_strength_free st 0 = st
      ∧ ziplock_validation_result_free st 0 = st
      ∧ ziplock_search_result_free st 0 = st
      ∧ ziplock_hybrid_string_free st 0 = st
      ∧ hybridStringFreeJni st 0 = st
      ∧ (ziplock_string_free st 0).lastError = st.lastError := by
  refine ⟨rfl, rfl, rfl, rfl, rfl, rfl, rfl, ?_, rfl⟩
  simp [hybridStringFreeJni]

/-- A character drawn from a non-empty class belongs to that class. -/
theorem pickChar_mem (rv : Nat) (cls : List Char) (h : cls ≠ []) :
    pickChar rv cls ∈ cls := by
  have hpos : 0 < cls.length := List.length_pos.mpr h
  have hlt : rv % cls.length < cls.length := Nat.mod_lt _ hpos
  rw [pickChar, List.getD_eq_getElem _ _ hlt]
  exact List.getElem_mem hlt

/-- The seed list has one character per requested class. -/
theorem seedChars_length (r : Nat → Nat) :
    ∀ (classes : List (List Char)) (k : Nat),
      (seedChars r k classes).length = classes.length := by
  intro classes
  induction classes with
  | nil => intro k; rfl
  | cons cls rest ih => intro k; simp [seedChars, ih]

/-- Every seed character belongs to one of the requested classes. -/
theorem seedChars_sound (r : Nat → Nat) :
    ∀ (classes : List (List Char)) (k : Nat),
      (∀ cls ∈ classes, cls ≠ []) →
      ∀ ch ∈ seedChars r k classes, ∃ cls ∈ classes, ch ∈ cls := by
  intro classes
  induction classes with
  | nil => intro k _ ch hch; simp [seedChars] at hch
  | cons cls rest ih =>
      intro k hall ch hch
      rcases List.mem_cons.mp hch with h | h
      · exact ⟨cls, List.mem_cons_self _ _,
          h ▸ pickChar_mem _ _ (hall cls (List.mem_cons_self _ _))⟩
      · obtain ⟨cls2, h2, h3⟩ :=
          ih (k + 1) (fun c hc => hall c (List.mem_cons_of_mem _ hc)) ch h
        exact ⟨cls2, List.mem_cons_of_mem _ h2, h3⟩

/-- Every requested class contributes at least its seed character. -/
theorem seedChars_witness (r : Nat → Nat) :
    ∀ (classes : List (List Char)) (k : Nat) (cls : List Char),
      cls ∈ classes → (∀ c ∈ classes, c ≠ []) →
      ∃ ch ∈ seedChars r k classes, ch ∈ cls := by
  intro classes
  induction classes with
  | nil => intro k cls h _; exact absurd h (List.not_mem_nil _)
  | cons c0 rest ih =>
      intro k cls hmem hall
      rcases List.mem_cons.mp hmem with h | h
      · subst h
        exact ⟨pickChar (r k) cls, List.mem_cons_self _ _,
          pickChar_mem _ _ (hall cls hmem)⟩
      · obtain ⟨ch, h1, h2⟩ :=
          ih (k + 1) cls h (fun c hc => hall c (List.mem_cons_of_mem _ hc))
        exact ⟨ch, List.mem_cons_of_mem _ h1, h2⟩

/-- Inserting at any position is a permutation of consing. -/
theorem insertAt_perm :
    ∀ (n : Nat) (c : Char) (cl : List Char), (insertAt n c cl).Perm (c :: cl) := by
  intro n
  induction n with
  | zero => intro c cl; exact List.Perm.refl _
  | succ m ih =>
      intro c cl
      cases cl with
      | nil => exact List.Perm.refl _
      | cons x xs =>
          exact ((ih c xs).cons x).trans (List.Perm.swap c x xs)

/-- The shuffle is a permutation of its input. -/
theorem shuffleChars_perm (r : Nat → Nat) :
    ∀ (cl : List Char) (k : Nat), (shuffleChars r k cl).Perm cl := by
  intro cl
  induction cl with
  | nil => intro k; exact List.Perm.refl _
  | cons c cs ih =>
      intro k
      exact (insertAt_perm _ c (shuffleChars r (k + 1) cs)).trans
        ((ih (k + 1)).cons c)

/-- The generated raw password has exactly the requested length. -/
theorem passwordRaw_length (len : Nat) (u l n s : Bool) (r : Nat → Nat) :
    (passwordRaw len u l n s r).length = len := by
  simp only [passwordRaw]
  rw [(shuffleChars_perm r _ len).length_eq, List.length_take,
    List.length_append, seedChars_length, List.length_map, List.length_range]
  omega

/-- Every character of the raw password comes from a requested class. -/
theorem passwordRaw_mem (len : Nat) (u l n s : Bool) (r : Nat → Nat)
    (hne : requestedClasses u l n s ≠ [])
    (hstruct : ∀ cls ∈ requestedClasses u l n s, cls ≠ []) :
    ∀ c ∈ passwordRaw len u l n s r,
      ∃ cls ∈ requestedClasses u l n s, c ∈ cls := by
  intro c hc
  simp only [passwordRaw] at hc
  rw [(shuffleChars_perm r _ len).mem_iff] at hc
  have hc2 := List.take_subset _ _ hc
  rcases List.mem_append.mp hc2 with h | h
  · exact seedChars_sound r _ 0 hstruct c h
  · obtain ⟨i, _, hpick⟩ := List.mem_map.mp h
    have hflat : (requestedClasses u l n s).flatten ≠ [] := by
      obtain ⟨cls, hcls⟩ := List.exists_mem_of_ne_nil _ hne
      obtain ⟨ch, hch⟩ := List.exists_mem_of_ne_nil cls (hstruct cls hcls)
      exact List.ne_nil_of_mem (List.mem_flatten.mpr ⟨cls, hcls, hch⟩)
    have hjoin : c ∈ (requestedClasses u l n s).flatten := by
      rw [← hpick]
      exact pickChar_mem _ _ hflat
    exact List.mem_flatten.mp hjoin

/-- When the length is at least the number of requested classes, every
requested class appears in the raw password. -/
theorem passwordRaw_diverse (len : Nat) (u l n s : Bool) (r : Nat → Nat)
    (hstruct : ∀ cls ∈ requestedClasses u l n s, cls ≠ [])
    (hlen : (requestedClasses u l n s).length ≤ len) :
    ∀ cls ∈ requestedClasses u l n s,
      ∃ c ∈ passwordRaw len u l n s r, c ∈ cls := by
  intro cls hcls
  obtain ⟨ch, hch1, hch2⟩ := seedChars_witness r _ 0 cls hcls hstruct
  refine ⟨ch, ?_, hch2⟩
  simp only [passwordRaw]
  rw [(shuffleChars_perm r _ len).mem_iff]
  rw [List.take_of_length_le]
  · exact List.mem_append_left _ hch1
  · rw [List.length_append, seedChars_length, List.length_map,
      List.length_range]
    omega

/-- A member of a flag-guarded singleton is that singleton's element. -/
theorem mem_ite_singleton {b : Bool} {x cls : List Char}
    (h : cls ∈ if b then [x] else []) : cls = x := by
  cases b
  · exact absurd h (List.not_mem_nil cls)
  · exact List.mem_singleton.mp h

/-- Every requested character class is non-empty. -/
theorem requestedClasses_nonempty (u l n s : Bool) :
    ∀ cls ∈ requestedClasses u l n s, cls ≠ [] := by
  intro cls h
  simp only [requestedClasses, List.mem_append] at h
  rcases h with ((h | h) | h) | h <;> rw [mem_ite_singleton h] <;> decide

/-- C1: for every length in `[1,256]` with at least one class flag set,
password generation succeeds and returns exactly `length` characters drawn
only from the requested classes, and when `length` is at least the number of
requested classes the result contains at least one character from each
requested class. -/
theorem password_generate_spec (len : Nat) (u l n s : Bool) (r : Nat → Nat)
    (h1 : 1 ≤ len) (h2 : len ≤ 256)
    (h3 : u = true ∨ l = true ∨ n = true ∨ s = true) :
    ∃ pw, ziplock_password_generate len u l n s r = Except.ok pw
      ∧ pw.length = len
      ∧ (∀ c ∈ pw, ∃ cls ∈ requestedClasses u l n s, c ∈ cls)
      ∧ ((requestedClasses u l n s).length ≤ len →
          ∀ cls ∈ requestedClasses u l n s, ∃ c ∈ pw, c ∈ cls) := by
  have hne : requestedClasses u l n s ≠ [] := by
    rcases h3 with h | h | h | h <;> subst h <;> simp [requestedClasses]
  have hstruct := requestedClasses_nonempty u l n s
  have hcond :
      ¬(len < 1 ∨ 256 < len ∨
        (requestedClasses u l n s).isEmpty = true) := by
    simp only [not_or]
    refine ⟨by omega, by omega, ?_⟩
    rw [List.isEmpty_iff]
    exact hne
  refine ⟨passwordRaw len u l n s r, ?_, passwordRaw_length len u l n s r,
    passwordRaw_mem len u l n s r hne hstruct,
    fun hlen => passwordRaw_diverse len u l n s r hstruct hlen⟩
  simp only [ziplock_password_generate]
  rw [if_neg hcond]

/-- Closed instance of `password_generate_spec` with all four classes and
length 8. -/
theorem password_generate_spec_witness :
    (1 ≤ 8 ∧ 8 ≤ 256 ∧
        (true = true ∨ true = true ∨ true = true ∨ true = true)) ∧
      (∃ pw,
        ziplock_password_generate 8 true true true true (fun _ => 0) =
            Except.ok pw
          ∧ pw.length = 8
          ∧ (∀ c ∈ pw, ∃ cls ∈ requestedClasses true true true true, c ∈ cls)
          ∧ ((requestedClasses true true true true).length ≤ 8 →
              ∀ cls ∈ requestedClasses true true true true,
                ∃ c ∈ pw, c ∈ cls)) :=
  ⟨⟨by decide, by decide, Or.inl rfl⟩,
    password_generate_spec 8 true true true true (fun _ => 0) (by decide)
      (by decide) (Or.inl rfl)⟩

/-- C9: password generation fails with `InvalidParameter` and returns no
password whenever the length is outside `[1,256]` (for any flags), and for
every length whenever all four class flags are false. -/
theorem password_generate_invalid (len : Nat) (u l n s : Bool)
    (r : Nat → Nat) (hlen : len < 1 ∨ 256 < len) :
    ziplock_password_generate len u l n s r =
        Except.error HybridStatus.invalidParameter
      ∧ ∀ len2 : Nat,
          ziplock_password_generate len2 false false false false r =
            Except.error HybridStatus.invalidParameter := by
  constructor
  · have hcond : len < 1 ∨ 256 < len ∨
        (requestedClasses u l n s).isEmpty = true := by
      rcases hlen with h | h
      · exact Or.inl h
      · exact Or.inr (Or.inl h)
    simp only [ziplock_password_generate]
    rw [if_pos hcond]
  · intro len2
    have hcl : (requestedClasses false false false false).isEmpty = true := rfl
    simp only [ziplock_password_generate]
    rw [if_pos (Or.inr (Or.inr hcl))]

/-- Closed instance of `password_generate_invalid` at length 0. -/
theorem password_generate_invalid_witness :
    ((0 : Nat) < 1 ∨ 256 < (0 : Nat)) ∧
      (ziplock_password_generate 0 true true false false (fun _ => 0) =
          Except.error HybridStatus.invalidParameter
        ∧ ∀ len2 : Nat,
            ziplock_password_generate len2 false false false false
                (fun _ => 0) =
              Except.error HybridStatus.invalidParameter) :=
  ⟨Or.inl (by decide),
    password_generate_invalid 0 true true false false (fun _ => 0)
      (Or.inl (by decide))⟩

/-- Adding a digit value to the code of `0` yields a decimal digit. -/
theorem digit_char_isDigit : ∀ d : Nat, d < 10 →
    (Char.ofNat (48 + d)).isDigit = true := by
  decide

/-- C8: TOTP generation is a pure function of the secret, the wall-clock time
and the time step — two calls whose times fall in the same window produce the
same code, and no state flows between calls.  On a decodable secret it
returns the 6-digit zero-padded rendering of the dynamic truncation, reduced
modulo 10^6, of the HMAC over the big-endian 8-byte counter
`time / timeStep`, keyed by the decoded base32 secret. -/
theorem totp_generate_spec (hmac : List Nat → List Nat → List Nat)
    (secret : List Char) (t1 t2 step : Nat) (key : List Nat)
    (hstep : step ≠ 0) (hkey : base32Decode secret = some key)
    (hdiv : t1 / step = t2 / step) :
    ∃ code, ziplock_totp_generate hmac secret t1 step = Except.ok code
      ∧ code.length = 6
      ∧ (∀ c ∈ code, c.isDigit = true)
      ∧ code = formatCode6
          (dynamicTruncate (hmac key (beBytes8 (t1 / step))) % 1000000)
      ∧ ziplock_totp_generate hmac secret t2 step =
          ziplock_totp_generate hmac secret t1 step := by
  refine ⟨formatCode6
      (dynamicTruncate (hmac key (beBytes8 (t1 / step))) % 1000000),
    ?_, ?_, ?_, rfl, ?_⟩
  · simp only [ziplock_totp_generate, if_neg hstep, hkey]
  · simp [formatCode6]
  · intro c hc
    simp only [formatCode6, List.mem_map, List.mem_range] at hc
    obtain ⟨i, _, rfl⟩ := hc
    exact digit_char_isDigit _ (Nat.mod_lt _ (by norm_num))
  · simp only [ziplock_totp_generate, if_neg hstep, hkey]
    rw [← hdiv]

/-- Closed instance of `totp_generate_spec` with secret `GE` (decoding to the
single byte 49) and the two times 59 and 45 in the same 30-second window. -/
theorem totp_generate_spec_witness :
    ((30 : Nat) ≠ 0 ∧ base32Decode "GE".data = some [49]
        ∧ (59 : Nat) / 30 = (45 : Nat) / 30) ∧
      (∃ code,
        ziplock_totp_generate (fun k m => k ++ m) "GE".data 59 30 =
            Except.ok code
          ∧ code.length = 6
          ∧ (∀ c ∈ code, c.isDigit = true)
          ∧ code = formatCode6
              (dynamicTruncate
                ((fun k m => k ++ m) [49] (beBytes8 (59 / 30))) % 1000000)
          ∧ ziplock_totp_generate (fun k m => k ++ m) "GE".data 45 30 =
              ziplock_totp_generate (fun k m => k ++ m) "GE".data 59 30) :=
  ⟨⟨by decide, by decide, by decide⟩,
    totp_generate_spec (fun k m => k ++ m) "GE".data 59 45 30 [49]
      (by decide) (by decide) (by decide)⟩
